import Mathlib

/-
Verification of the kong-ingress-controller reconciliation core.

The definitions below are a shallow embedding of the controller source
(controller/controller.go, composite-name variant, plus the simple-name
variant of the validator and qualified-name derivation).  Stateful gateway
interaction is modelled by explicit state passing over a list of gateway
API records; each write operation issued against the gateway is recorded
in a trace so that claims about which calls are emitted can be stated.
-/

deriving instance DecidableEq for Except

namespace KongIC

/-- Backend of an ingress path: service name and the rendered service port
(Go renders ServicePort via its String method). -/
structure IngressBackend where
  serviceName : String
  servicePort : String
  deriving DecidableEq

/-- One path entry of the HTTP block of an ingress rule. -/
structure HTTPIngressPath where
  path : String
  backend : IngressBackend
  deriving DecidableEq

/-- One ingress rule: a host plus the path list of its HTTP block. -/
structure IngressRule where
  host : String
  paths : List HTTPIngressPath
  deriving DecidableEq

/-- An ingress resource: object metadata (name, namespace), the annotation
map, the optional default backend (Spec.Backend) and the rule list. -/
structure Ingress where
  name : String
  namespaceName : String
  annotations : List (String × String)
  backend : Option IngressBackend
  rules : List IngressRule
  deriving DecidableEq

/-- The annotation key consulted for ingress-class filtering. -/
def ingressClassAnnotationName : String := "kubernetes.io/ingress.class"

/-- The ingress class owned by this controller. -/
def kongIngressControllerClass : String := "kong"

/-- ingressIsFairGame from controller.go: eligible when the ingress-class
annotation is absent, or present with exactly the controller class. -/
def ingressIsFairGame (ingress : Ingress) : Bool :=
  match ingress.annotations.lookup ingressClassAnnotationName with
  | some val => val == kongIngressControllerClass
  | none => true

/-- UTF-8 encoding of one character, as Go produces when converting a
string to a byte slice. -/
def charUtf8Bytes (c : Char) : List Nat :=
  let n := c.toNat
  if n < 128 then [n]
  else if n < 2048 then [192 + n / 64, 128 + n % 64]
  else if n < 65536 then [224 + n / 4096, 128 + (n / 64) % 64, 128 + n % 64]
  else [240 + n / 262144, 128 + (n / 4096) % 64, 128 + (n / 64) % 64, 128 + n % 64]

/-- The UTF-8 byte sequence of a string (Go: []byte(input)). -/
def stringBytes (s : String) : List Nat :=
  s.data.flatMap charUtf8Bytes

/-- One step of the Adler-32 rolling checksum (hash/adler32). -/
def adler32Step (ab : Nat × Nat) (x : Nat) : Nat × Nat :=
  let a := (ab.1 + x) % 65521
  (a, (ab.2 + a) % 65521)

/-- Adler-32 checksum of a byte sequence (hash/adler32.Checksum). -/
def adler32 (bytes : List Nat) : Nat :=
  let ab := bytes.foldl adler32Step (1, 0)
  ab.2 * 65536 + ab.1

/-- Hexadecimal digit character, lowercase for values ten to fifteen. -/
def hexDigitChar (n : Nat) : Char :=
  if n < 10 then Char.ofNat (48 + n) else Char.ofNat (87 + n)

/-- Digit accumulation loop of base-16 rendering.  The fuel bounds the
number of digits produced; sixteen digits cover every 64-bit value. -/
def formatHexCore (fuel : Nat) (n : Nat) (acc : List Char) : List Char :=
  match fuel with
  | 0 => acc
  | fuel + 1 => if n = 0 then acc else formatHexCore fuel (n / 16) (hexDigitChar (n % 16) :: acc)

/-- strconv.FormatUint(n, 16) for 64-bit values: lowercase hexadecimal
with no leading zeros, and the single digit 0 for zero. -/
def formatUintHex (n : Nat) : String :=
  if n = 0 then "0" else String.mk (formatHexCore 16 n [])

/-- hashString from controller.go: the Adler-32 checksum of the input
rendered in lowercase hexadecimal. -/
def hashString (input : String) : String :=
  formatUintHex (adler32 (stringBytes input))

/-- getQualifiedAPIName from controller.go (composite form). -/
def getQualifiedAPIName (host : String) (path : String) (namespaceName : String) : String :=
  host ++ "~" ++ hashString path ++ "~" ++ namespaceName

/-- getUpstreamURL from controller.go: built from the backend of the
specific ingress path being reconciled. -/
def getUpstreamURL (ingressPath : HTTPIngressPath) (namespaceName : String) : String :=
  "http://" ++ ingressPath.backend.serviceName ++ "." ++ namespaceName ++ ":" ++ ingressPath.backend.servicePort

/-- The write-request body sent on POST (kong.ApiRequest as filled in by
apiRequestFromIngress). -/
structure ApiRequest where
  name : String
  upstreamURL : String
  hosts : String
  uris : String
  preserveHost : Bool
  stripURI : Option Bool
  deriving DecidableEq

/-- apiRequestFromIngress from controller.go (composite form). -/
def apiRequestFromIngress (ingressRule : IngressRule) (ingressPath : HTTPIngressPath) (namespaceName : String) : ApiRequest :=
  { name := getQualifiedAPIName ingressRule.host ingressPath.path namespaceName
    upstreamURL := getUpstreamURL ingressPath namespaceName
    hosts := ingressRule.host
    uris := ingressPath.path
    preserveHost := true
    stripURI := some false }

/-- A gateway API record as returned by GET (kong.Api).  stripURI is a
pointer in the Go client, hence optional here; a nil uris slice and an
empty one behave identically in the code and are both the empty list. -/
structure KongApi where
  id : String
  name : String
  upstreamURL : String
  hosts : List String
  preserveHost : Bool
  stripURI : Option Bool
  uris : List String
  deriving DecidableEq

/-- A write operation issued against the gateway admin API.  Each patch
constructor carries exactly the record id plus the one field patched,
mirroring the partial-body PATCH requests built in reconcileAPI. -/
inductive ApiWriteReq where
  | post (req : ApiRequest)
  | patchUpstreamURL (id : String) (upstreamURL : String)
  | patchHosts (id : String) (hosts : String)
  | patchPreserveHost (id : String) (preserveHost : Bool)
  | patchStripURI (id : String) (stripURI : Bool)
  | patchUris (id : String) (uris : String)
  deriving DecidableEq

/-- reconcileAPI from controller.go (composite form), as a function of the
GET outcome (none models a 404).  The result is the list of write
operations issued, in order, with every write assumed accepted; the
outcome none models the nil-pointer dereference the Go code performs when
the fetched record carries no stripURI value. -/
def reconcileAPI (fetched : Option KongApi) (ingressRule : IngressRule) (ingressPath : HTTPIngressPath) (namespaceName : String) : Option (List ApiWriteReq) :=
  match fetched with
  | none => some [ApiWriteReq.post (apiRequestFromIngress ingressRule ingressPath namespaceName)]
  | some api =>
    let correctUpstreamURL := getUpstreamURL ingressPath namespaceName
    let ops1 : List ApiWriteReq :=
      if api.upstreamURL ≠ correctUpstreamURL then [ApiWriteReq.patchUpstreamURL api.id correctUpstreamURL] else []
    let correctHosts := ingressRule.host
    let hostsDrift : Bool :=
      match api.hosts with
      | [h] => h != correctHosts
      | _ => true
    let ops2 : List ApiWriteReq :=
      if hostsDrift then [ApiWriteReq.patchHosts api.id correctHosts] else []
    let ops3 : List ApiWriteReq :=
      if api.preserveHost ≠ true then [ApiWriteReq.patchPreserveHost api.id true] else []
    match api.stripURI with
    | none => none
    | some stripVal =>
      let ops4 : List ApiWriteReq :=
        if stripVal ≠ false then [ApiWriteReq.patchStripURI api.id false] else []
      let urisDrift : Bool :=
        match api.uris with
        | [] => true
        | u :: _ => u != ingressPath.path
      let ops5 : List ApiWriteReq :=
        if urisDrift then [ApiWriteReq.patchUris api.id ingressPath.path] else []
      some (ops1 ++ ops2 ++ ops3 ++ ops4 ++ ops5)

/-- validateIngressSupported from controller.go (composite form): only the
single-service default backend is rejected. -/
def validateIngressSupported (ingress : Ingress) : Except String Unit :=
  if ingress.backend.isSome then
    Except.error "Single Service Ingress types are not currently supported"
  else
    Except.ok ()

namespace Simple

/-- getQualifiedName of the simple-form variant: name dot namespace. -/
def getQualifiedName (ingress : Ingress) : String :=
  ingress.name ++ "." ++ ingress.namespaceName

/-- validateIngressSupported of the simple-form variant: rejects a default
backend, a rule count other than one, and a path list of the single rule
that is not exactly the root path. -/
def validateIngressSupported (ingress : Ingress) : Except String Unit :=
  if ingress.backend.isSome then
    Except.error "Single Service Ingress types are not currently supported"
  else if ingress.rules.length ≠ 1 then
    Except.error "Only ingresses with a single rule are currently supported"
  else
    let rule0 := ingress.rules.headD { host := "", paths := [] }
    if rule0.paths.length ≠ 1 ∨ (rule0.paths.headD { path := "", backend := { serviceName := "", servicePort := "" } }).path ≠ "/" then
      Except.error "Only ingresses with a single root path are currently supported"
    else
      Except.ok ()

end Simple

/-- The gateway state: the list of API records it currently stores. -/
structure GatewayState where
  apis : List KongApi
  deriving DecidableEq

/-- GET of a single API by name; none models a 404 response. -/
def apisGet (st : GatewayState) (name : String) : Option KongApi :=
  st.apis.find? (fun api => api.name == name)

/-- DELETE of an API by name. -/
def apisDelete (st : GatewayState) (name : String) : GatewayState :=
  { apis := st.apis.filter (fun api => api.name != name) }

/-- deleteKongAPI from controller.go: GET first and fail loud when that
fails, only then DELETE.  The second component is the trace of DELETE
calls issued against the gateway. -/
def deleteKongAPI (st : GatewayState) (apiName : String) : Except String GatewayState × List String :=
  match apisGet st apiName with
  | none => (Except.error ("Failed to retrieve kong api " ++ apiName), [])
  | some _ => (Except.ok (apisDelete st apiName), [apiName])

/-- The name set built by the reaper: one qualified name per (rule, path)
pair of every fair-game ingress in the snapshot.  The Go code fills a
string-keyed boolean map inside the same nested loops; membership in this
list coincides with membership in that map. -/
def expectedNames (items : List Ingress) : List String :=
  (items.filter (fun ingress => ingressIsFairGame ingress)).flatMap (fun ingress =>
    ingress.rules.flatMap (fun ingressRule =>
      ingressRule.paths.map (fun ingressPath =>
        getQualifiedAPIName ingressRule.host ingressPath.path ingress.namespaceName)))

/-- One iteration of the reaper deletion loop: skip names present in the
expected set, otherwise attempt deleteKongAPI; a per-API failure is logged
and skipped, leaving the state unchanged. -/
def reapStep (expected : List String) (acc : GatewayState × List String) (api : KongApi) : GatewayState × List String :=
  if expected.contains api.name then acc
  else
    match deleteKongAPI acc.1 api.name with
    | (Except.ok st2, dels) => (st2, acc.2 ++ dels)
    | (Except.error _, dels) => (acc.1, acc.2 ++ dels)

/-- reapOrphanedApis from controller.go, over the two list outcomes.  A
failure of either list aborts the cycle with that error and an empty
DELETE trace; otherwise every listed API whose name is not expected is
deleted via deleteKongAPI. -/
def reapOrphanedApis (kongApis : Except String (List KongApi)) (ingressItems : Except String (List Ingress)) (st : GatewayState) : Except String GatewayState × List String :=
  match kongApis with
  | Except.error e => (Except.error ("Failed to get kong api list: " ++ e), [])
  | Except.ok apis =>
    match ingressItems with
    | Except.error e => (Except.error ("Failed to get ingress list: " ++ e), [])
    | Except.ok items =>
      let expected := expectedNames items
      let result := apis.foldl (reapStep expected) (st, [])
      (Except.ok result.1, result.2)

/-! Concrete fixtures used by witnesses and counterexamples. -/

/-- Sample backend, matching the test fixtures of the repository. -/
def backendW : IngressBackend := { serviceName := "service-1", servicePort := "32000" }

/-- Sample root path over the sample backend. -/
def pathW : HTTPIngressPath := { path := "/", backend := backendW }

/-- Sample single-path rule. -/
def ruleW : IngressRule := { host := "bestservice.somedomain", paths := [pathW] }

/-- Sample eligible ingress with no annotations. -/
def plainIngressW : Ingress :=
  { name := "bestservice", namespaceName := "prod", annotations := [],
    backend := none, rules := [ruleW] }

/-- Sample gateway record that already satisfies invariant I1 for ruleW,
pathW and namespace prod. -/
def convergedApiW : KongApi :=
  { id := "id1"
    name := getQualifiedAPIName ruleW.host pathW.path "prod"
    upstreamURL := getUpstreamURL pathW "prod"
    hosts := [ruleW.host]
    preserveHost := true
    stripURI := some false
    uris := ["/"] }

/-- Sample gateway record with a drifted stripURI field. -/
def driftApiW : KongApi :=
  { convergedApiW with id := "id2", stripURI := some true }

/-- Sample gateway record whose GET response carries no stripURI value. -/
def nilStripApiW : KongApi :=
  { convergedApiW with id := "id3", stripURI := none }

/-- Sample gateway record owned by no ingress. -/
def orphanApiW : KongApi :=
  { id := "o1", name := "orphanedAPI1", upstreamURL := "u", hosts := [],
    preserveHost := false, stripURI := none, uris := [] }

/-- Sample gateway state holding only the orphan record. -/
def orphanStateW : GatewayState := { apis := [orphanApiW] }

/-! Helper lemmas. -/

/-- After deleting a name, a GET of that name returns not-found. -/
theorem apisGet_apisDelete_self (st : GatewayState) (name : String) :
    apisGet (apisDelete st name) name = none := by
  rw [apisGet, List.find?_eq_none]
  intro a ha
  have h2 := (List.mem_filter.mp ha).2
  simp only [bne_iff_ne, ne_eq] at h2
  simp [h2]

/-- A reaper step never adds records to the gateway state. -/
theorem reapStep_state_subset (expected : List String) (acc : GatewayState × List String)
    (api : KongApi) : ∀ a ∈ (reapStep expected acc api).1.apis, a ∈ acc.1.apis := by
  intro a ha
  rw [reapStep] at ha
  split at ha
  · exact ha
  · cases hget : apisGet acc.1 api.name with
    | none => simpa [deleteKongAPI, hget] using ha
    | some b =>
      simp only [deleteKongAPI, hget] at ha
      have hmem : a ∈ acc.1.apis ∧ ¬a.name = api.name := by
        simpa [apisDelete] using ha
      exact hmem.1

/-- The reaper deletion fold never adds records to the gateway state. -/
theorem reapFold_state_subset (expected : List String) (l : List KongApi) :
    ∀ acc, ∀ a ∈ (l.foldl (reapStep expected) acc).1.apis, a ∈ acc.1.apis := by
  induction l with
  | nil => intro acc a ha; exact ha
  | cons y t ih =>
    intro acc a ha
    simp only [List.foldl_cons] at ha
    exact reapStep_state_subset expected acc y a (ih _ a ha)

/-- After the reaper step for an unexpected name, no record with that name
remains in the gateway state. -/
theorem reapStep_kills (expected : List String) (acc : GatewayState × List String)
    (api : KongApi) (hc : expected.contains api.name = false) :
    ∀ a ∈ (reapStep expected acc api).1.apis, a.name ≠ api.name := by
  intro a ha
  rw [reapStep] at ha
  split at ha
  · rename_i hcond
    rw [hc] at hcond
    simp at hcond
  · cases hget : apisGet acc.1 api.name with
    | none =>
      simp only [deleteKongAPI, hget] at ha
      have := List.find?_eq_none.mp hget a ha
      simpa using this
    | some b =>
      simp only [deleteKongAPI, hget] at ha
      have hmem : a ∈ acc.1.apis ∧ ¬a.name = api.name := by
        simpa [apisDelete] using ha
      exact hmem.2

/-- After the whole reaper deletion fold, no record keeps a listed name
that is outside the expected set. -/
theorem reapFold_kills (expected : List String) (l : List KongApi) :
    ∀ acc, ∀ x ∈ l, expected.contains x.name = false →
      ∀ a ∈ (l.foldl (reapStep expected) acc).1.apis, a.name ≠ x.name := by
  induction l with
  | nil => intro acc x hx; cases hx
  | cons y t ih =>
    intro acc x hx hc a ha
    simp only [List.foldl_cons] at ha
    rcases List.mem_cons.mp hx with h | h
    · subst h
      exact reapStep_kills expected acc x hc a (reapFold_state_subset expected t _ a ha)
    · exact ih _ x h hc a ha

example : hashString "/" = "300030" := by decide

example : getQualifiedAPIName "h" "/" "ns" = "h~300030~ns" := by decide

/-! Claim theorems. -/

/-- C2: for every (rule, path) pair, the desired upstream URL is built
from the backend of that very path — scheme http, then the service name
of the path backend, the namespace and the rendered service port — and it
does not depend on any other path of the rule. -/
theorem upstream_url_per_path (ingressRule ingressRule2 : IngressRule)
    (ingressPath : HTTPIngressPath) (namespaceName : String) :
    getUpstreamURL ingressPath namespaceName =
      "http://" ++ ingressPath.backend.serviceName ++ "." ++ namespaceName ++ ":" ++ ingressPath.backend.servicePort ∧
    (apiRequestFromIngress ingressRule ingressPath namespaceName).upstreamURL =
      getUpstreamURL ingressPath namespaceName ∧
    (apiRequestFromIngress ingressRule ingressPath namespaceName).upstreamURL =
      (apiRequestFromIngress ingressRule2 ingressPath namespaceName).upstreamURL :=
  ⟨rfl, rfl, rfl⟩

/-- C3: whenever the fetched record carries a stripURI value other than
false, reconcile of that record issues a PATCH carrying exactly the record
id and stripURI set to false. -/
theorem stripuri_drift_patch (api : KongApi) (ingressRule : IngressRule)
    (ingressPath : HTTPIngressPath) (namespaceName : String) (b : Bool)
    (hb : api.stripURI = some b) (hdrift : b ≠ false) :
    ∃ ops, reconcileAPI (some api) ingressRule ingressPath namespaceName = some ops ∧
      ApiWriteReq.patchStripURI api.id false ∈ ops := by
  have hbt : b = true := by
    cases b
    · exact absurd rfl hdrift
    · rfl
  subst hbt
  simp only [reconcileAPI, hb]
  refine ⟨_, rfl, ?_⟩
  simp

/-- C3 witness: a concrete record with stripURI true gets the stripURI
PATCH. -/
theorem stripuri_drift_patch_witness :
    driftApiW.stripURI = some true ∧ (true : Bool) ≠ false ∧
    ∃ ops, reconcileAPI (some driftApiW) ruleW pathW "prod" = some ops ∧
      ApiWriteReq.patchStripURI driftApiW.id false ∈ ops :=
  ⟨rfl, by decide, stripuri_drift_patch driftApiW ruleW pathW "prod" true rfl (by decide)⟩

/-- C4: a reaper cycle aborts atomically when either list fails: the
failed list error is returned and no DELETE call is issued. -/
theorem reaper_aborts_on_list_failure (st : GatewayState) (e : String) (apis : List KongApi)
    (ingressItems : Except String (List Ingress)) :
    reapOrphanedApis (Except.error e) ingressItems st =
      (Except.error ("Failed to get kong api list: " ++ e), []) ∧
    reapOrphanedApis (Except.ok apis) (Except.error e) st =
      (Except.error ("Failed to get ingress list: " ++ e), []) :=
  ⟨rfl, rfl⟩

/-- C4 witness: the abort behaviour at a concrete state and error. -/
theorem reaper_aborts_on_list_failure_witness :
    reapOrphanedApis (Except.error "boom") (Except.ok []) orphanStateW =
      (Except.error ("Failed to get kong api list: " ++ "boom"), []) ∧
    reapOrphanedApis (Except.ok orphanStateW.apis) (Except.error "boom") orphanStateW =
      (Except.error ("Failed to get ingress list: " ++ "boom"), []) :=
  reaper_aborts_on_list_failure orphanStateW "boom" orphanStateW.apis (Except.ok [])

/-- C5: reconcile of a record already satisfying invariant I1 issues no
POST and no PATCH. -/
theorem reconcile_noop_on_converged (api : KongApi) (ingressRule : IngressRule)
    (ingressPath : HTTPIngressPath) (namespaceName : String)
    (h1 : api.upstreamURL = getUpstreamURL ingressPath namespaceName)
    (h2 : api.hosts = [ingressRule.host])
    (h3 : api.preserveHost = true)
    (h4 : api.stripURI = some false)
    (h5 : api.uris = [ingressPath.path]) :
    reconcileAPI (some api) ingressRule ingressPath namespaceName = some [] := by
  simp [reconcileAPI, h1, h2, h3, h4, h5]

/-- C5 witness: the converged fixture record yields an empty operation
list. -/
theorem reconcile_noop_on_converged_witness :
    convergedApiW.upstreamURL = getUpstreamURL pathW "prod" ∧
    convergedApiW.hosts = [ruleW.host] ∧
    convergedApiW.preserveHost = true ∧
    convergedApiW.stripURI = some false ∧
    convergedApiW.uris = [pathW.path] ∧
    reconcileAPI (some convergedApiW) ruleW pathW "prod" = some [] :=
  ⟨rfl, rfl, rfl, rfl, by decide,
    reconcile_noop_on_converged convergedApiW ruleW pathW "prod" rfl rfl rfl rfl (by decide)⟩

/-- C7: an ingress is fair game exactly when the ingress-class annotation
is absent or carries exactly the value kong; in particular an ingress with
no annotations at all is eligible. -/
theorem eligibility_iff (ingress : Ingress) :
    (ingressIsFairGame ingress = true ↔
      ingress.annotations.lookup ingressClassAnnotationName = none ∨
      ingress.annotations.lookup ingressClassAnnotationName = some "kong") ∧
    (ingress.annotations = [] → ingressIsFairGame ingress = true) := by
  constructor
  · cases h : ingress.annotations.lookup ingressClassAnnotationName with
    | none => simp [ingressIsFairGame, h]
    | some val => simp [ingressIsFairGame, h, kongIngressControllerClass]
  · intro h
    simp [ingressIsFairGame, h, List.lookup]

/-- C7 witness: a concrete annotation-free ingress is eligible and the
characterisation holds for it. -/
theorem eligibility_iff_witness :
    (ingressIsFairGame plainIngressW = true ↔
      plainIngressW.annotations.lookup ingressClassAnnotationName = none ∨
      plainIngressW.annotations.lookup ingressClassAnnotationName = some "kong") ∧
    (plainIngressW.annotations = [] → ingressIsFairGame plainIngressW = true) :=
  eligibility_iff plainIngressW

/-- C2 witness: the upstream URL of the sample pair at a concrete input. -/
theorem upstream_url_per_path_witness :
    getUpstreamURL pathW "prod" =
      "http://" ++ pathW.backend.serviceName ++ "." ++ "prod" ++ ":" ++ pathW.backend.servicePort ∧
    (apiRequestFromIngress ruleW pathW "prod").upstreamURL = getUpstreamURL pathW "prod" ∧
    (apiRequestFromIngress ruleW pathW "prod").upstreamURL =
      (apiRequestFromIngress ruleW pathW "prod").upstreamURL :=
  (upstream_url_per_path ruleW ruleW pathW "prod").imp id (fun h => ⟨h.1, h.2⟩)

/-- The sixteen characters a lowercase hexadecimal rendering may use. -/
def lowercaseHexDigits : List Char :=
  String.data "0123456789abcdef"

/-- Each digit below sixteen renders to a lowercase hexadecimal
character. -/
theorem hexDigitChar_mem (m : Nat) (hm : m < 16) : hexDigitChar m ∈ lowercaseHexDigits := by
  interval_cases m <;> decide

/-- Every character produced by the hexadecimal digit loop is a lowercase
hexadecimal character, provided the accumulator only holds such
characters. -/
theorem formatHexCore_chars (fuel : Nat) :
    ∀ n acc, (∀ c ∈ acc, c ∈ lowercaseHexDigits) →
      ∀ c ∈ formatHexCore fuel n acc, c ∈ lowercaseHexDigits := by
  induction fuel with
  | zero => intro n acc hacc c hc; exact hacc c hc
  | succ fuel ih =>
    intro n acc hacc c hc
    rw [formatHexCore] at hc
    split at hc
    · exact hacc c hc
    · refine ih (n / 16) _ ?_ c hc
      intro d hd
      rcases List.mem_cons.mp hd with h | h
      · subst h
        exact hexDigitChar_mem _ (Nat.mod_lt _ (by norm_num))
      · exact hacc d h

/-- Every character of a rendered unsigned hexadecimal value is a
lowercase hexadecimal character. -/
theorem formatUintHex_chars (n : Nat) :
    ∀ c ∈ (formatUintHex n).data, c ∈ lowercaseHexDigits := by
  intro c hc
  rw [formatUintHex] at hc
  split at hc
  · have hc0 : c = '0' := by simpa using hc
    subst hc0
    decide
  · exact formatHexCore_chars 16 n [] (by intro d hd; cases hd) c hc

/-- Both running components of the Adler-32 fold stay below the modulus. -/
theorem adler32_foldl_bound (l : List Nat) :
    ∀ ab : Nat × Nat, ab.1 < 65521 → ab.2 < 65521 →
      (l.foldl adler32Step ab).1 < 65521 ∧ (l.foldl adler32Step ab).2 < 65521 := by
  induction l with
  | nil => intro ab h1 h2; exact ⟨h1, h2⟩
  | cons x t ih =>
    intro ab h1 h2
    simp only [List.foldl_cons]
    exact ih _ (Nat.mod_lt _ (by norm_num)) (Nat.mod_lt _ (by norm_num))

/-- The Adler-32 checksum is a 32-bit value. -/
theorem adler32_lt (bytes : List Nat) : adler32 bytes < 4294967296 := by
  have h := adler32_foldl_bound bytes (1, 0) (by norm_num) (by norm_num)
  rw [adler32]
  omega

/-- C8: the composite qualified API name concatenates host, a tilde, the
hash of the path, a tilde and the namespace; the hash is the Adler-32
checksum of the UTF-8 bytes of the path — a 32-bit value — rendered in
lowercase hexadecimal.  All three definitions are plain functions of their
arguments, so equal inputs yield equal names. -/
theorem qualified_name_composite (host path namespaceName : String) :
    getQualifiedAPIName host path namespaceName =
      host ++ "~" ++ hashString path ++ "~" ++ namespaceName ∧
    hashString path = formatUintHex (adler32 (stringBytes path)) ∧
    (∀ c ∈ (hashString path).data, c ∈ lowercaseHexDigits) ∧
    adler32 (stringBytes path) < 4294967296 :=
  ⟨rfl, rfl, fun c hc => formatUintHex_chars _ c hc, adler32_lt _⟩

/-- C8 witness: the characterisation at the root path, whose hash renders
to the concrete string 300030. -/
theorem qualified_name_composite_witness :
    getQualifiedAPIName "bestservice.somedomain" "/" "prod" =
      "bestservice.somedomain" ++ "~" ++ hashString "/" ++ "~" ++ "prod" ∧
    hashString "/" = "300030" ∧
    '3' ∈ (hashString "/").data ∧ '3' ∈ lowercaseHexDigits :=
  ⟨(qualified_name_composite "bestservice.somedomain" "/" "prod").1, by decide, by decide,
    (qualified_name_composite "bestservice.somedomain" "/" "prod").2.2.1 '3' (by decide)⟩

/-- C10 counterexample: a fetched record whose stripURI field is absent
drives reconcile into the undefined nil dereference, modelled as the
outcome none. -/
theorem reconcile_nil_stripuri_counterexample :
    nilStripApiW.stripURI = none ∧
    reconcileAPI (some nilStripApiW) ruleW pathW "prod" = none := by decide

/-- C10 amended: reconcile of an existing record is defined exactly when
the fetched stripURI field is present; an absent stripURI reaches the
undefined dereference. -/
theorem reconcile_stripuri_totality (api : KongApi) (ingressRule : IngressRule)
    (ingressPath : HTTPIngressPath) (namespaceName : String) :
    (∀ b, api.stripURI = some b →
      ∃ ops, reconcileAPI (some api) ingressRule ingressPath namespaceName = some ops) ∧
    (api.stripURI = none →
      reconcileAPI (some api) ingressRule ingressPath namespaceName = none) := by
  constructor
  · intro b hb
    simp only [reconcileAPI, hb]
    exact ⟨_, rfl⟩
  · intro h
    simp only [reconcileAPI, h]

/-- C10 amended witness: the converged fixture has a present stripURI and
reconcile is defined on it. -/
theorem reconcile_stripuri_totality_witness :
    convergedApiW.stripURI = some false ∧
    ∃ ops, reconcileAPI (some convergedApiW) ruleW pathW "prod" = some ops :=
  ⟨rfl, (reconcile_stripuri_totality convergedApiW ruleW pathW "prod").1 false rfl⟩

/-- C6: deleteGatewayAPI GETs first and only DELETEs after the GET
succeeds.  When the GET reports not-found the call returns an error with
an empty DELETE trace, so the gateway is untouched; when the record
exists, the call succeeds, removes the record and issues exactly one
DELETE, after which a second call on the same name fails its GET with a
not-found error and issues no DELETE. -/
theorem delete_get_first_idempotence (st : GatewayState) (apiName : String) :
    (apisGet st apiName = none →
      deleteKongAPI st apiName = (Except.error ("Failed to retrieve kong api " ++ apiName), [])) ∧
    (∀ api, apisGet st apiName = some api →
      deleteKongAPI st apiName = (Except.ok (apisDelete st apiName), [apiName]) ∧
      apisGet (apisDelete st apiName) apiName = none ∧
      deleteKongAPI (apisDelete st apiName) apiName =
        (Except.error ("Failed to retrieve kong api " ++ apiName), [])) := by
  constructor
  · intro h
    simp [deleteKongAPI, h]
  · intro api h
    refine ⟨by simp [deleteKongAPI, h], apisGet_apisDelete_self st apiName, ?_⟩
    simp [deleteKongAPI, apisGet_apisDelete_self st apiName]

/-- C6 witness: deleting the orphan fixture succeeds once and fails
not-found the second time with no DELETE issued. -/
theorem delete_get_first_idempotence_witness :
    deleteKongAPI orphanStateW "orphanedAPI1" =
      (Except.ok (apisDelete orphanStateW "orphanedAPI1"), ["orphanedAPI1"]) ∧
    apisGet (apisDelete orphanStateW "orphanedAPI1") "orphanedAPI1" = none ∧
    deleteKongAPI (apisDelete orphanStateW "orphanedAPI1") "orphanedAPI1" =
      (Except.error ("Failed to retrieve kong api " ++ "orphanedAPI1"), []) :=
  (delete_get_first_idempotence orphanStateW "orphanedAPI1").2 orphanApiW (by decide)

/-- The ingress used in the C9 counterexample: no default backend and one
rule whose path list is empty. -/
def zeroPathIngress : Ingress :=
  { name := "somename", namespaceName := "infra", annotations := [], backend := none,
    rules := [{ host := "somename.somedomain", paths := [] }] }

/-- C9 counterexample: the simple-form validator rejects an ingress with
one rule and zero paths, although the claim predicts acceptance for it —
it has no default backend, exactly one rule, not more than one path, and
no path different from the root path. -/
theorem validate_zero_paths_counterexample :
    Simple.validateIngressSupported zeroPathIngress =
      Except.error "Only ingresses with a single root path are currently supported" ∧
    zeroPathIngress.backend = none ∧
    zeroPathIngress.rules.length = 1 ∧
    (∀ rule ∈ zeroPathIngress.rules, ¬1 < rule.paths.length) ∧
    (∀ rule ∈ zeroPathIngress.rules, ∀ p ∈ rule.paths, p.path = "/") := by
  decide

/-- C9 amended: the composite-form validator fails exactly on a default
backend; the simple-form validator fails exactly on a default backend, a
rule count other than one, or a path list of the single rule that is not
exactly one root path. -/
theorem validate_supported_iff (ingress : Ingress) :
    (validateIngressSupported ingress = Except.ok () ↔ ingress.backend = none) ∧
    (Simple.validateIngressSupported ingress = Except.ok () ↔
      ingress.backend = none ∧
      ∃ rule p, ingress.rules = [rule] ∧ rule.paths = [p] ∧ p.path = "/") := by
  constructor
  · cases hb : ingress.backend <;> simp [validateIngressSupported, hb]
  · cases hb : ingress.backend with
    | some b => simp [Simple.validateIngressSupported, hb]
    | none =>
      rcases hr : ingress.rules with _ | ⟨r, _ | ⟨r2, t⟩⟩
      · simp [Simple.validateIngressSupported, hb, hr]
      · rcases hp : r.paths with _ | ⟨p, _ | ⟨p2, t2⟩⟩
        · simp [Simple.validateIngressSupported, hb, hr, hp]
        · by_cases hroot : p.path = "/"
          · simp [Simple.validateIngressSupported, hb, hr, hp, hroot]
          · simp [Simple.validateIngressSupported, hb, hr, hp, hroot]
        · simp [Simple.validateIngressSupported, hb, hr, hp]
      · simp [Simple.validateIngressSupported, hb, hr]

/-- C9 amended witness: the plain fixture ingress passes both validators
and exhibits the single root path. -/
theorem validate_supported_iff_witness :
    (validateIngressSupported plainIngressW = Except.ok () ↔ plainIngressW.backend = none) ∧
    (Simple.validateIngressSupported plainIngressW = Except.ok () ↔
      plainIngressW.backend = none ∧
      ∃ rule p, plainIngressW.rules = [rule] ∧ rule.paths = [p] ∧ p.path = "/") :=
  validate_supported_iff plainIngressW

/-- C1: a completed reaper cycle over successful lists deletes every
gateway API whose name is outside the expected name set — every surviving
record carries an expected name — and the expected name set contains a
name exactly when it is the qualified name of some (rule, path) pair of
some fair-game ingress of the listed snapshot. -/
theorem reaper_orphan_cleanup (st : GatewayState) (items : List Ingress) :
    ∃ st2 dels,
      reapOrphanedApis (Except.ok st.apis) (Except.ok items) st = (Except.ok st2, dels) ∧
      (∀ a ∈ st2.apis, a.name ∈ expectedNames items) ∧
      (∀ n, n ∈ expectedNames items ↔
        ∃ ingress ∈ items, ingressIsFairGame ingress = true ∧
          ∃ rule ∈ ingress.rules, ∃ p ∈ rule.paths,
            n = getQualifiedAPIName rule.host p.path ingress.namespaceName) := by
  refine ⟨_, _, rfl, ?_, ?_⟩
  · intro a ha
    by_contra hn
    have hc : (expectedNames items).contains a.name = false := by
      simpa using hn
    have hmem : a ∈ st.apis :=
      reapFold_state_subset (expectedNames items) st.apis (st, []) a ha
    exact reapFold_kills (expectedNames items) st.apis (st, []) a hmem hc a ha rfl
  · intro n
    constructor
    · intro hn
      rw [expectedNames] at hn
      rcases List.mem_flatMap.mp hn with ⟨ingress, hi, hrest⟩
      rcases List.mem_filter.mp hi with ⟨hitems, hfair⟩
      rcases List.mem_flatMap.mp hrest with ⟨rule, hrule, hpath⟩
      rcases List.mem_map.mp hpath with ⟨p, hp, hEq⟩
      exact ⟨ingress, hitems, hfair, rule, hrule, p, hp, hEq.symm⟩
    · rintro ⟨ingress, hitems, hfair, rule, hrule, p, hp, hEq⟩
      rw [expectedNames]
      refine List.mem_flatMap.mpr ⟨ingress, List.mem_filter.mpr ⟨hitems, hfair⟩, ?_⟩
      exact List.mem_flatMap.mpr ⟨rule, hrule, List.mem_map.mpr ⟨p, hp, hEq.symm⟩⟩

/-- C1 witness: a cycle over the orphan fixture state with an empty
ingress snapshot. -/
theorem reaper_orphan_cleanup_witness :
    ∃ st2 dels,
      reapOrphanedApis (Except.ok orphanStateW.apis) (Except.ok []) orphanStateW =
        (Except.ok st2, dels) ∧
      (∀ a ∈ st2.apis, a.name ∈ expectedNames []) ∧
      (∀ n, n ∈ expectedNames [] ↔
        ∃ ingress ∈ ([] : List Ingress), ingressIsFairGame ingress = true ∧
          ∃ rule ∈ ingress.rules, ∃ p ∈ rule.paths,
            n = getQualifiedAPIName rule.host p.path ingress.namespaceName) :=
  reaper_orphan_cleanup orphanStateW []

end KongIC
